import Mathlib

/-!
Verification of the cutting-stock optimizer (models.py, gerador_padroes.py,
otimizador_ortools.py).

The Python source is shallowly embedded:
* machine integers are `Nat` (the HTTP layer validates inputs as positive
  integers, §6 of the specification, so quantities, lengths and widths are
  non-negative);
* Python `float` ratios (`soma_largura / largura`, the minimum-utilization
  threshold) are modelled as `ℚ`; every ratio actually compared by the code
  under the claims is exactly representable (`0`, `1`, thresholds), so the
  rational model agrees with IEEE double arithmetic there;
* fallible code is `Except String`: Python's `ZeroDivisionError` (integer or
  float division by zero) becomes `.error "ZeroDivisionError"`;
* Python dicts (`items_cobertos`, `restricoes`) are association lists with
  insertion-order preserved and in-place overwrite, mirroring dict semantics;
* the external OR-Tools CBC solver is an abstract collaborator: a function
  from the built integer-program model to an optional assignment, constrained
  in the theorems by the feasibility contract `satisfazModelo`.
-/

instance {ε α : Type} [DecidableEq ε] [DecidableEq α] : DecidableEq (Except ε α)
  | .ok a, .ok b =>
      match decEq a b with
      | isTrue h => isTrue (h ▸ rfl)
      | isFalse h => isFalse fun he => h (Except.ok.inj he)
  | .ok _, .error _ => isFalse nofun
  | .error _, .ok _ => isFalse nofun
  | .error e, .error f =>
      match decEq e f with
      | isTrue h => isTrue (h ▸ rfl)
      | isFalse h => isFalse fun he => h (Except.error.inj he)

/-- models.py `TipoItem`. -/
inductive TipoItem where
  | estoque
  | pedido
deriving DecidableEq

/-- models.py `Item`. Python equality/hash use only `codigo`; the code paths
verified here never compare `Item` values directly (they compare `codigo`
fields), so structural equality is used only for decidability. -/
structure Item where
  codigo : String
  comprimento : Nat
  largura_maxima : Nat
  quantidade : Nat
  tipo : TipoItem
  prioridade : Int := 0
deriving DecidableEq

/-- models.py `Chapa`. -/
structure Chapa where
  largura : Nat
  comprimento : Nat
  espessura : Nat
  material : String := "aço"
deriving DecidableEq

/-- models.py `Padrao`. -/
structure Padrao where
  items : List Item := []
  quantidades : List Nat := []
  chapa : Option Chapa := none
deriving DecidableEq

/-- models.py `Padrao.soma_largura`: `sum(item.comprimento * qtd for item, qtd
in zip(self.items, self.quantidades))`. -/
def Padrao.soma_largura (p : Padrao) : Nat :=
  ((p.items.zip p.quantidades).map (fun iq => iq.1.comprimento * iq.2)).sum

/-- models.py `Padrao.num_skus`: `len(set(item.codigo for item in self.items))`. -/
def Padrao.num_skus (p : Padrao) : Nat :=
  ((p.items.map (fun it => it.codigo)).dedup).length

/-- models.py `Padrao.aproveitamento`: `self.soma_largura / self.chapa.largura
if self.chapa else 0.0`. (In ℚ, division by a zero `largura` yields `0`;
Python would raise there, but every call site reached in the verified paths
either has `chapa = none` or a positive `largura`.) -/
def Padrao.aproveitamento (p : Padrao) : ℚ :=
  match p.chapa with
  | some c => (p.soma_largura : ℚ) / (c.largura : ℚ)
  | none => 0

/-- models.py `SolucaoOtimizacao`. `items_cobertos` is a Python dict modelled
as an insertion-ordered association list. -/
structure SolucaoOtimizacao where
  padroes : List Padrao := []
  aproveitamento_total : ℚ := 0
  chapas_necessarias : Nat := 0
  items_cobertos : List (String × Nat) := []
  tempo_processamento_ms : ℚ := 0
  ranking : Nat := 0
deriving DecidableEq

/-- Python `d.get(k, 0)` on an insertion-ordered association list. -/
def dictGet (m : List (String × Nat)) (k : String) : Nat :=
  match m.find? (fun e => e.1 == k) with
  | some e => e.2
  | none => 0

/-- Python `d[k] = v`: overwrite in place if the key exists, else append. -/
def dictSet (m : List (String × Nat)) (k : String) (v : Nat) : List (String × Nat) :=
  if m.any (fun e => e.1 == k) then
    m.map (fun e => if e.1 == k then (k, v) else e)
  else m ++ [(k, v)]

/-- Model of Python's fixed-point percent formatting `f"{x:.2%}"` (the spec
asks for "a percentage with two decimal places"): multiply by 100, keep two
decimals, append `%`. Ties are rounded up here where CPython rounds the
underlying binary double half-to-even; the two renderings agree on every
value produced by the verified code paths (exact multiples of 1/10000, and
in the claims only `0`). -/
def pad2 (n : Nat) : String :=
  if n < 10 then "0" ++ toString n else toString n

def formatPercent2 (q : ℚ) : String :=
  let cents : Int := ⌊q * 10000 + 1/2⌋
  toString (cents / 100) ++ "." ++ pad2 (cents % 100).toNat ++ "%"

/-- models.py `SolucaoOtimizacao.resumo`, per-pattern entry. -/
structure PadraoResumo where
  num_padrao : Nat
  items : List String
  quantidades : List Nat
  aproveitamento : String
  soma_largura : Nat
deriving DecidableEq

/-- models.py `SolucaoOtimizacao.resumo`, top-level dict. -/
structure Resumo where
  ranking : Nat
  aproveitamento : String
  chapas_necessarias : Nat
  padroes : List PadraoResumo
deriving DecidableEq

/-- models.py `SolucaoOtimizacao.resumo`. -/
def SolucaoOtimizacao.resumo (s : SolucaoOtimizacao) : Resumo :=
  { ranking := s.ranking
    aproveitamento := formatPercent2 s.aproveitamento_total
    chapas_necessarias := s.chapas_necessarias
    padroes := (List.enumFrom 1 s.padroes).map (fun ip =>
      { num_padrao := ip.1
        items := ip.2.items.map (fun it => it.codigo)
        quantidades := ip.2.quantidades
        aproveitamento := formatPercent2 ip.2.aproveitamento
        soma_largura := ip.2.soma_largura }) }

/-- gerador_padroes.py `GeradorPadroes.__init__`. The `padroes_gerados` set is
dead state (never read nor written by any method) and is omitted. -/
structure GeradorPadroes where
  chapa : Chapa
  min_aproveitamento : ℚ := 95/100

/-- Inner `for qtd in range(max_quantidade + 1)` loop of
`_encontrar_distribuicoes.backtrack`: for each multiplicity `q` in ascending
order, run the continuation (the recursive call at `idx + 1`), prepend `q` to
each completed vector, and concatenate in loop order. An error aborts the
loop, like a raised exception. -/
def btQtds (qs : List Nat) (f : Nat → Except String (List (List Nat))) :
    Except String (List (List Nat)) :=
  match qs with
  | [] => .ok []
  | q :: restoQs =>
      match f q with
      | .error e => .error e
      | .ok sub =>
          match btQtds restoQs f with
          | .error e => .error e
          | .ok more => .ok (sub.map (fun v => q :: v) ++ more)

/-- gerador_padroes.py `_encontrar_distribuicoes.backtrack`, fuel-indexed so
the recursion is structural (hence kernel-computable). The fuel counts the
items not yet assigned a multiplicity; `backtrack` below instantiates it with
`items.length`, making the `0, _ :: _` branch unreachable. The source order
is kept: base case accepts iff the running sum equals the target, then the
`soma_atual > largura_alvo` prune, then `espaco_restante // comprimento`
(a `ZeroDivisionError` if the current item's length is zero), then the
ascending multiplicity loop. -/
def btFuel (alvo : Nat) : Nat → List Item → Nat → Except String (List (List Nat))
  | _, [], soma => if soma = alvo then .ok [[]] else .ok []
  | 0, _ :: _, _ => .error "unreachable: fuel exhausted"
  | fuel+1, it :: rest, soma =>
      if alvo < soma then .ok []
      else if it.comprimento = 0 then .error "ZeroDivisionError"
      else btQtds (List.range ((alvo - soma) / it.comprimento + 1))
             (fun q => btFuel alvo fuel rest (soma + q * it.comprimento))

/-- gerador_padroes.py `backtrack(0, [], 0)` seen from the top: the list of
complete multiplicity vectors (one entry per item, in item order) whose
weighted sum hits `alvo` exactly, in depth-first search order. -/
def backtrack (alvo : Nat) (items : List Item) (soma : Nat) :
    Except String (List (List Nat)) :=
  btFuel alvo items.length items soma

/-- itertools.combinations: all length-`k` sublists of `l` keeping the input
order, emitted in lexicographic order of positions. -/
def combinacoes {α : Type} : Nat → List α → List (List α)
  | 0, _ => [[]]
  | _+1, [] => []
  | k+1, x :: xs => (combinacoes k xs).map (fun c => x :: c) ++ combinacoes (k+1) xs

/-- gerador_padroes.py `_encontrar_distribuicoes`: run the backtracking search
and wrap each accepted multiplicity vector in a `Padrao` with these items and
no `chapa` (the Python constructor leaves `chapa=None`). -/
def encontrarDistribuicoes (g : GeradorPadroes) (combo : List Item) :
    Except String (List Padrao) :=
  (backtrack g.chapa.largura combo 0).map
    (List.map (fun qs => { items := combo, quantidades := qs, chapa := none }))

/-- gerador_padroes.py `_validar_padrao`. Check order follows the source:
sum below the sheet width, at most 3 distinct SKUs, utilization
`padrao.soma_largura / self.chapa.largura` (float division: raises
`ZeroDivisionError` on a zero-width sheet) against the threshold, and no
negative quantity (vacuous over `Nat`, kept for shape). -/
def validarPadrao (g : GeradorPadroes) (p : Padrao) : Except String Bool :=
  if g.chapa.largura < p.soma_largura then .ok false
  else if 3 < p.num_skus then .ok false
  else if g.chapa.largura = 0 then .error "ZeroDivisionError"
  else if (p.soma_largura : ℚ) / (g.chapa.largura : ℚ) < g.min_aproveitamento then .ok false
  else if p.quantidades.any (fun q => q < 0) then .ok false
  else .ok true

/-- The `for padrao in padroes: if self._validar_padrao(padrao): append` loop
of `gerar_padroes_validos`, validating in list order; an error aborts. -/
def filtrarValidos (g : GeradorPadroes) : List Padrao → Except String (List Padrao)
  | [] => .ok []
  | p :: ps =>
      match validarPadrao g p with
      | .error e => .error e
      | .ok b =>
          match filtrarValidos g ps with
          | .error e => .error e
          | .ok rest => .ok (if b then p :: rest else rest)

/-- The combination loop of `gerar_padroes_validos`: for each combination (in
order), find its distributions, keep the valid ones, append. -/
def gerarPorCombos (g : GeradorPadroes) : List (List Item) → Except String (List Padrao)
  | [] => .ok []
  | combo :: resto =>
      match encontrarDistribuicoes g combo with
      | .error e => .error e
      | .ok ps =>
          match filtrarValidos g ps with
          | .error e => .error e
          | .ok vs =>
              match gerarPorCombos g resto with
              | .error e => .error e
              | .ok outros => .ok (vs ++ outros)

/-- gerador_padroes.py `gerar_padroes_validos`: combinations of 1, 2 then 3
distinct items (by position), each expanded and validated in order. -/
def gerarPadroesValidos (g : GeradorPadroes) (items : List Item) :
    Except String (List Padrao) :=
  gerarPorCombos g (([1, 2, 3].map (fun k => combinacoes k items)).flatten)

/-- otimizador_ortools.py `_resolver_modelo`, constraint coefficient: the sum
`sum(qtd for item, qtd in zip(padrao.items, padrao.quantidades) if item.codigo
== codigo)`. -/
def qtdNoPadrao (p : Padrao) (codigo : String) : Nat :=
  (((p.items.zip p.quantidades).filter (fun iq => iq.1.codigo == codigo)).map
    (fun iq => iq.2)).sum

/-- One linear constraint as handed to the external solver: lower and upper
bound and one coefficient per pattern variable. -/
structure RestricaoPL where
  nome : String
  minimo : Nat
  maximo : Nat
  coefs : List Nat
deriving DecidableEq

/-- The integer program `_resolver_modelo` builds: one variable per pattern
bounded by `0..limiteVar` (source: `IntVar(0, 1000, ...)`), one objective
coefficient per variable, a minimization direction (the source always calls
`SetMinimization`), and the item constraints. -/
structure ModeloPL where
  objetivo : List ℚ
  minimizacao : Bool
  restricoes : List RestricaoPL
  limiteVar : Nat
deriving DecidableEq

/-- otimizador_ortools.py `_resolver_modelo`, objective block: coefficient 1
per variable for `"minimizar_chapas"`, else `-(padrao.soma_largura /
self.chapa.largura)` per variable — both other strategies take this same
branch. -/
def montarObjetivo (chapa : Chapa) (padroes : List Padrao) (estrategia : String) : List ℚ :=
  if estrategia = "minimizar_chapas" then padroes.map (fun _ => 1)
  else padroes.map (fun p => -((p.soma_largura : ℚ) / (chapa.largura : ℚ)))

/-- The full model `_resolver_modelo` hands to the solver. `_peso` mirrors the
`peso_aproveitamento` parameter of the source, which is received and never
read. -/
def montarModelo (chapa : Chapa) (padroes : List Padrao)
    (restricoes : List (String × Nat × Nat)) (estrategia : String) (_peso : ℚ) : ModeloPL :=
  { objetivo := montarObjetivo chapa padroes estrategia
    minimizacao := true
    restricoes := restricoes.map (fun r =>
      { nome := r.1, minimo := r.2.1, maximo := r.2.2
        coefs := padroes.map (fun p => qtdNoPadrao p r.1) })
    limiteVar := 1000 }

def somaPonderada (coefs : List Nat) (x : List Nat) : Nat :=
  ((coefs.zip x).map (fun cv => cv.1 * cv.2)).sum

/-- Feasibility contract of the external solver (§1 of the spec: "given
variables, bounds, linear constraints and a linear objective, return an
optimal or feasible assignment, or report infeasibility"): a returned
assignment has one value per variable, respects the variable bounds and every
linear constraint. -/
def satisfazModeloB (m : ModeloPL) (x : List Nat) : Bool :=
  x.length = m.objetivo.length &&
  x.all (fun v => v ≤ m.limiteVar) &&
  m.restricoes.all (fun r =>
    r.minimo ≤ somaPonderada r.coefs x && somaPonderada r.coefs x ≤ r.maximo)

def satisfazModelo (m : ModeloPL) (x : List Nat) : Prop :=
  satisfazModeloB m x = true

instance (m : ModeloPL) (x : List Nat) : Decidable (satisfazModelo m x) :=
  inferInstanceAs (Decidable (satisfazModeloB m x = true))

/-- otimizador_ortools.py `_resolver_modelo`, decode block: keep each pattern
whose variable value exceeds 0.5 paired with its rounded usage count (over
`Nat`, value `> 0.5` is value `≥ 1` and rounding is the identity), in index
order. -/
def decodeUsados (padroes : List Padrao) (x : List Nat) : List (Padrao × Nat) :=
  (padroes.zip x).filter (fun pv => decide (0 < pv.2))

/-- otimizador_ortools.py `_montar_solucao`, inner item loop for one pattern:
`items_cobertos[item.codigo] = items_cobertos.get(item.codigo, 0) + qtd_item`. -/
def acumulaCobertos (m : List (String × Nat)) (p : Padrao) : List (String × Nat) :=
  (p.items.zip p.quantidades).foldl
    (fun m iq => dictSet m iq.1.codigo (dictGet m iq.1.codigo + iq.2)) m

/-- otimizador_ortools.py `_montar_solucao`. The `items_pedido` parameter is
received and never read, as in the source. -/
def montarSolucao (padroesUsados : List (Padrao × Nat)) (_items_pedido : List Item) :
    SolucaoOtimizacao :=
  let padroesFinais := padroesUsados.map (fun pu => pu.1)
  let itemsCobertos := padroesUsados.foldl (fun m pu => acumulaCobertos m pu.1) []
  let total := padroesUsados.foldl (fun a pu => a + pu.1.aproveitamento * (pu.2 : ℚ)) (0 : ℚ)
  let numChapas := padroesFinais.length
  { padroes := padroesFinais
    aproveitamento_total := if 0 < numChapas then total / numChapas else total
    chapas_necessarias := numChapas
    items_cobertos := itemsCobertos }

/-- otimizador_ortools.py `_resolver_modelo`: build the model, submit it to
the external solver (the `solve` collaborator; `none` models a status other
than OPTIMAL/FEASIBLE), decode and assemble. -/
def resolverModelo (solve : ModeloPL → Option (List Nat)) (chapa : Chapa)
    (padroes : List Padrao) (restricoes : List (String × Nat × Nat))
    (peso : ℚ) (estrategia : String) (itemsPedidoRef : List Item) :
    Option SolucaoOtimizacao :=
  match solve (montarModelo chapa padroes restricoes estrategia peso) with
  | none => none
  | some x => some (montarSolucao (decodeUsados padroes x) itemsPedidoRef)

/-- Python `restricoes[item.codigo] = {...}` on the insertion-ordered dict of
per-code bounds. -/
def upsertRestricao (rs : List (String × Nat × Nat)) (k : String) (mn mx : Nat) :
    List (String × Nat × Nat) :=
  if rs.any (fun e => e.1 == k) then
    rs.map (fun e => if e.1 == k then (k, mn, mx) else e)
  else rs ++ [(k, mn, mx)]

/-- otimizador_ortools.py `otimizar`, restriction block: PEDIDO items get
exact bounds `[quantidade, quantidade]`, then ESTOQUE items get
`[0, quantidade]` (overwriting a PEDIDO entry on a shared code, as the dict
assignment does). -/
def buildRestricoes (itemsPedido itemsEstoque : List Item) : List (String × Nat × Nat) :=
  let r1 := itemsPedido.foldl
    (fun rs it => upsertRestricao rs it.codigo it.quantidade it.quantidade) []
  itemsEstoque.foldl (fun rs it => upsertRestricao rs it.codigo 0 it.quantidade) r1

/-- otimizador_ortools.py `otimizar`, strategy list. -/
def estrategias : List (String × ℚ) :=
  [("maximizar_aproveitamento", 1), ("minimizar_chapas", 1/2), ("balanceado", 7/10)]

/-- otimizador_ortools.py `otimizar`. `solve` is the external solver
collaborator (one stateless call per strategy; the source clears the solver
between strategies). `tempoMs` is the externally observed elapsed wall-clock
time stamped on each ranked solution; the empty-placeholder return stamps 0,
as in the source. Sorting models Python's stable `list.sort(key=...,
reverse=True)` by a stable merge sort on non-increasing
`aproveitamento_total`; ranks 1.. are assigned before truncation to
`maxSolucoes`, as in the source. -/
def otimizar (solve : ModeloPL → Option (List Nat)) (chapa : Chapa)
    (minAproveitamento : ℚ) (itemsPedido itemsEstoque : List Item)
    (maxSolucoes : Nat) (tempoMs : ℚ) : Except String (List SolucaoOtimizacao) :=
  match gerarPadroesValidos
      { chapa := chapa, min_aproveitamento := minAproveitamento }
      (itemsPedido ++ itemsEstoque) with
  | .error e => .error e
  | .ok padroesValidos =>
      if padroesValidos.isEmpty then
        .ok [{ padroes := [], tempo_processamento_ms := 0, items_cobertos := [] }]
      else
        let restricoes := buildRestricoes itemsPedido itemsEstoque
        let solucoes := (estrategias.take maxSolucoes).filterMap
          (fun e => resolverModelo solve chapa padroesValidos restricoes e.2 e.1 itemsPedido)
        let ordenadas := solucoes.mergeSort
          (fun a b => decide (b.aproveitamento_total ≤ a.aproveitamento_total))
        let ranqueadas := (List.enumFrom 1 ordenadas).map
          (fun is => { is.2 with ranking := is.1, tempo_processamento_ms := tempoMs })
        .ok (ranqueadas.take maxSolucoes)

/-! ### Helper lemmas about the pattern generator -/

theorem btQtds_ok_mem {qs : List Nat} {f : Nat → Except String (List (List Nat))}
    {res : List (List Nat)} (h : btQtds qs f = .ok res) {v : List Nat} (hv : v ∈ res) :
    ∃ q, q ∈ qs ∧ ∃ sub, f q = .ok sub ∧ ∃ w, w ∈ sub ∧ v = q :: w := by
  induction qs generalizing res with
  | nil =>
      simp only [btQtds] at h
      cases h
      cases hv
  | cons q restoQs ih =>
      simp only [btQtds] at h
      cases hf : f q with
      | error e => rw [hf] at h; cases h
      | ok sub =>
          rw [hf] at h
          cases hm : btQtds restoQs f with
          | error e => rw [hm] at h; cases h
          | ok more =>
              rw [hm] at h
              cases h
              rcases List.mem_append.mp hv with hv1 | hv2
              · rcases List.mem_map.mp hv1 with ⟨w, hw, rfl⟩
                exact ⟨q, List.mem_cons_self q restoQs, sub, hf, w, hw, rfl⟩
              · rcases ih hm hv2 with ⟨q', hq', sub', hf', w', hw', rfl⟩
                exact ⟨q', List.mem_cons_of_mem q hq', sub', hf', w', hw', rfl⟩

theorem btFuel_sound {alvo : Nat} :
    ∀ (fuel : Nat) (items : List Item) (soma : Nat) (res : List (List Nat)),
      btFuel alvo fuel items soma = .ok res →
      ∀ v ∈ res,
        soma + ((items.zip v).map (fun iq => iq.1.comprimento * iq.2)).sum = alvo := by
  intro fuel
  induction fuel with
  | zero =>
      intro items soma res h v hv
      match items with
      | [] =>
          simp only [btFuel] at h
          by_cases hs : soma = alvo
          · rw [if_pos hs] at h
            cases h
            simp only [List.mem_singleton] at hv
            subst hv
            simpa using hs
          · rw [if_neg hs] at h
            cases h
            cases hv
      | _ :: _ =>
          simp only [btFuel] at h
          cases h
  | succ fuel ih =>
      intro items soma res h v hv
      match items with
      | [] =>
          simp only [btFuel] at h
          by_cases hs : soma = alvo
          · rw [if_pos hs] at h
            cases h
            simp only [List.mem_singleton] at hv
            subst hv
            simpa using hs
          · rw [if_neg hs] at h
            cases h
            cases hv
      | it :: rest =>
          simp only [btFuel] at h
          by_cases hlt : alvo < soma
          · rw [if_pos hlt] at h
            cases h
            cases hv
          · rw [if_neg hlt] at h
            by_cases hz : it.comprimento = 0
            · rw [if_pos hz] at h
              cases h
            · rw [if_neg hz] at h
              rcases btQtds_ok_mem h hv with ⟨q, _, sub, hf, w, hw, rfl⟩
              have hsum := ih rest (soma + q * it.comprimento) sub hf w hw
              simp only [List.zip_cons_cons, List.map_cons, List.sum_cons]
              rw [Nat.mul_comm it.comprimento q]
              omega

theorem backtrack_sound {alvo : Nat} {items : List Item} {res : List (List Nat)}
    (h : backtrack alvo items 0 = .ok res) {v : List Nat} (hv : v ∈ res) :
    ((items.zip v).map (fun iq => iq.1.comprimento * iq.2)).sum = alvo := by
  have := btFuel_sound items.length items 0 res h v hv
  simpa using this

theorem encontrar_sound {g : GeradorPadroes} {combo : List Item} {ds : List Padrao}
    (h : encontrarDistribuicoes g combo = .ok ds) {p : Padrao} (hp : p ∈ ds) :
    p.items = combo ∧ p.chapa = none ∧ p.soma_largura = g.chapa.largura := by
  unfold encontrarDistribuicoes at h
  cases hb : backtrack g.chapa.largura combo 0 with
  | error e => rw [hb] at h; cases h
  | ok res =>
      rw [hb] at h
      simp only [Except.map] at h
      cases h
      rcases List.mem_map.mp hp with ⟨qs, hqs, rfl⟩
      refine ⟨rfl, rfl, ?_⟩
      have := backtrack_sound hb hqs
      simpa [Padrao.soma_largura] using this

theorem filtrarValidos_mem {g : GeradorPadroes} : ∀ {ds vs : List Padrao},
    filtrarValidos g ds = .ok vs → ∀ {p : Padrao}, p ∈ vs →
    p ∈ ds ∧ validarPadrao g p = .ok true := by
  intro ds
  induction ds with
  | nil =>
      intro vs h p hp
      simp only [filtrarValidos] at h
      cases h
      cases hp
  | cons d ds ih =>
      intro vs h p hp
      simp only [filtrarValidos] at h
      cases hb : validarPadrao g d with
      | error e => rw [hb] at h; cases h
      | ok b =>
          rw [hb] at h
          cases hr : filtrarValidos g ds with
          | error e => rw [hr] at h; cases h
          | ok rest =>
              rw [hr] at h
              cases h
              cases b with
              | false =>
                  simp only [if_neg Bool.false_ne_true] at hp
                  rcases ih hr hp with ⟨h1, h2⟩
                  exact ⟨List.mem_cons_of_mem _ h1, h2⟩
              | true =>
                  simp only [if_pos rfl] at hp
                  rcases List.mem_cons.mp hp with rfl | hp2
                  · exact ⟨List.mem_cons_self _ _, hb⟩
                  · rcases ih hr hp2 with ⟨h1, h2⟩
                    exact ⟨List.mem_cons_of_mem _ h1, h2⟩

theorem gerarPorCombos_mem {g : GeradorPadroes} : ∀ {combosL : List (List Item)}
    {ps : List Padrao}, gerarPorCombos g combosL = .ok ps → ∀ {p : Padrao}, p ∈ ps →
    ∃ combo, combo ∈ combosL ∧ ∃ ds, encontrarDistribuicoes g combo = .ok ds ∧
      p ∈ ds ∧ validarPadrao g p = .ok true := by
  intro combosL
  induction combosL with
  | nil =>
      intro ps h p hp
      simp only [gerarPorCombos] at h
      cases h
      cases hp
  | cons combo resto ih =>
      intro ps h p hp
      simp only [gerarPorCombos] at h
      cases he : encontrarDistribuicoes g combo with
      | error e => rw [he] at h; cases h
      | ok ds =>
          simp only [he] at h
          cases hf : filtrarValidos g ds with
          | error e => rw [hf] at h; cases h
          | ok vs =>
              simp only [hf] at h
              cases hg : gerarPorCombos g resto with
              | error e => rw [hg] at h; cases h
              | ok outros =>
                  simp only [hg, Except.ok.injEq] at h
                  subst h
                  rcases List.mem_append.mp hp with h1 | h2
                  · rcases filtrarValidos_mem hf h1 with ⟨hds, hval⟩
                    exact ⟨combo, List.mem_cons_self _ _, ds, he, hds, hval⟩
                  · rcases ih hg h2 with ⟨c, hc, ds', he', hds', hval'⟩
                    exact ⟨c, List.mem_cons_of_mem _ hc, ds', he', hds', hval'⟩

theorem gerarPadroesValidos_sound {g : GeradorPadroes} {items : List Item}
    {ps : List Padrao} (h : gerarPadroesValidos g items = .ok ps)
    {p : Padrao} (hp : p ∈ ps) :
    p.chapa = none ∧ p.soma_largura = g.chapa.largura ∧
    validarPadrao g p = .ok true := by
  unfold gerarPadroesValidos at h
  rcases gerarPorCombos_mem h hp with ⟨combo, _, ds, he, hds, hval⟩
  rcases encontrar_sound he hds with ⟨_, hch, hsoma⟩
  exact ⟨hch, hsoma, hval⟩

theorem combinacoes_mem {α : Type} : ∀ (k : Nat) (l : List α) (c : List α),
    c ∈ combinacoes k l → ∀ x ∈ c, x ∈ l := by
  intro k l
  induction l generalizing k with
  | nil =>
      intro c hc x hx
      match k with
      | 0 =>
          simp only [combinacoes, List.mem_singleton] at hc
          subst hc
          cases hx
      | k+1 => simp only [combinacoes, List.not_mem_nil] at hc
  | cons a l ih =>
      intro c hc x hx
      match k with
      | 0 =>
          simp only [combinacoes, List.mem_singleton] at hc
          subst hc
          cases hx
      | k+1 =>
          simp only [combinacoes, List.mem_append] at hc
          rcases hc with h1 | h2
          · rcases List.mem_map.mp h1 with ⟨c', hc', rfl⟩
            rcases List.mem_cons.mp hx with rfl | hx2
            · exact List.mem_cons_self _ _
            · exact List.mem_cons_of_mem _ (ih k c' hc' x hx2)
          · exact List.mem_cons_of_mem _ (ih (k+1) c h2 x hx)

theorem validarPadrao_ok {g : GeradorPadroes} (hL : g.chapa.largura ≠ 0) (p : Padrao) :
    ∃ b, validarPadrao g p = .ok b := by
  unfold validarPadrao
  by_cases h1 : g.chapa.largura < p.soma_largura
  · exact ⟨false, by rw [if_pos h1]⟩
  rw [if_neg h1]
  by_cases h2 : 3 < p.num_skus
  · exact ⟨false, by rw [if_pos h2]⟩
  rw [if_neg h2, if_neg hL]
  by_cases h3 : (p.soma_largura : ℚ) / (g.chapa.largura : ℚ) < g.min_aproveitamento
  · exact ⟨false, by rw [if_pos h3]⟩
  rw [if_neg h3]
  by_cases h4 : p.quantidades.any (fun q => decide (q < 0)) = true
  · exact ⟨false, by rw [if_pos h4]⟩
  · exact ⟨true, by rw [if_neg h4]⟩

theorem validarPadrao_threshold {g1 g2 : GeradorPadroes} (hc : g2.chapa = g1.chapa)
    (h1 : g1.min_aproveitamento ≤ 1) (h2 : g2.min_aproveitamento ≤ 1)
    {p : Padrao} (hsoma : p.soma_largura = g1.chapa.largura) :
    validarPadrao g1 p = validarPadrao g2 p := by
  unfold validarPadrao
  rw [hc]
  by_cases hlt : g1.chapa.largura < p.soma_largura
  · rw [if_pos hlt, if_pos hlt]
  rw [if_neg hlt, if_neg hlt]
  by_cases hsk : 3 < p.num_skus
  · rw [if_pos hsk, if_pos hsk]
  rw [if_neg hsk, if_neg hsk]
  by_cases hz : g1.chapa.largura = 0
  · rw [if_pos hz, if_pos hz]
  rw [if_neg hz, if_neg hz]
  have hratio : (p.soma_largura : ℚ) / (g1.chapa.largura : ℚ) = 1 := by
    rw [hsoma]
    exact div_self (Nat.cast_ne_zero.mpr hz)
  rw [hratio, if_neg (not_lt.mpr h1), if_neg (not_lt.mpr h2)]

/-! ### Concrete fixtures used by witnesses and counterexamples -/

def cChapa : Chapa := { largura := 1200, comprimento := 6000, espessura := 2 }

def cGerador : GeradorPadroes := { chapa := cChapa, min_aproveitamento := 95/100 }

def cItemA2 : Item :=
  { codigo := "ITEM_A", comprimento := 600, largura_maxima := 1200
    quantidade := 2, tipo := .pedido }

def cPadraoA : Padrao := { items := [cItemA2], quantidades := [2], chapa := none }

/-- C1: for every sheet and every item list, every pattern in a successful
result of the generator's `gerarPadroesValidos` has `soma_largura` (the sum
of `item.comprimento * count` over its pairs) exactly equal to the sheet
width — equality, not merely `≤`. -/
theorem c1_padroes_soma_exata (g : GeradorPadroes) (items : List Item)
    (ps : List Padrao) (h : gerarPadroesValidos g items = .ok ps) :
    ∀ p ∈ ps, p.soma_largura = g.chapa.largura := by
  intro p hp
  exact (gerarPadroesValidos_sound h hp).2.1

unseal Rat.mul Rat.inv Rat.add Rat.sub in
theorem c1_padroes_soma_exata_witness :
    cPadraoA.soma_largura = cGerador.chapa.largura :=
  c1_padroes_soma_exata cGerador [cItemA2] [cPadraoA] (by decide) cPadraoA (by decide)

theorem filtrarValidos_congr {g1 g2 : GeradorPadroes} : ∀ {ds : List Padrao},
    (∀ p ∈ ds, validarPadrao g1 p = validarPadrao g2 p) →
    filtrarValidos g1 ds = filtrarValidos g2 ds := by
  intro ds
  induction ds with
  | nil => intro _; rfl
  | cons d ds ih =>
      intro hall
      simp only [filtrarValidos]
      rw [hall d (List.mem_cons_self _ _),
        ih (fun p hp => hall p (List.mem_cons_of_mem _ hp))]

theorem gerarPorCombos_threshold {chapa : Chapa} {t1 t2 : ℚ} (h1 : t1 ≤ 1) (h2 : t2 ≤ 1) :
    ∀ (combosL : List (List Item)),
    gerarPorCombos ⟨chapa, t1⟩ combosL = gerarPorCombos ⟨chapa, t2⟩ combosL := by
  intro combosL
  induction combosL with
  | nil => rfl
  | cons combo resto ih =>
      simp only [gerarPorCombos]
      have he : encontrarDistribuicoes ⟨chapa, t1⟩ combo
          = encontrarDistribuicoes ⟨chapa, t2⟩ combo := rfl
      cases hres : encontrarDistribuicoes ⟨chapa, t1⟩ combo with
      | error e =>
          rw [show encontrarDistribuicoes ⟨chapa, t2⟩ combo = .error e from hres]
      | ok ds =>
          simp only [show encontrarDistribuicoes ⟨chapa, t2⟩ combo = .ok ds from hres]
          have hfil : filtrarValidos ⟨chapa, t1⟩ ds = filtrarValidos ⟨chapa, t2⟩ ds := by
            apply filtrarValidos_congr
            intro p hp
            exact @validarPadrao_threshold ⟨chapa, t1⟩ ⟨chapa, t2⟩ rfl h1 h2 p
              (encontrar_sound hres hp).2.2
          rw [hfil, ih]

/-- C10: the minimum-utilization threshold has no effect on the generator
while it stays at most 1: since every accepted assignment sums exactly to the
sheet width, each candidate's ratio is exactly 1 and the threshold comparison
in `_validar_padrao` never rejects a generated pattern, so two thresholds
`t1, t2 ≤ 1` yield identical outputs. -/
theorem c10_limiar_indiferente (chapa : Chapa) (items : List Item) (t1 t2 : ℚ)
    (h1 : t1 ≤ 1) (h2 : t2 ≤ 1) :
    gerarPadroesValidos ⟨chapa, t1⟩ items = gerarPadroesValidos ⟨chapa, t2⟩ items := by
  unfold gerarPadroesValidos
  exact gerarPorCombos_threshold h1 h2 _

unseal Rat.mul Rat.inv Rat.add Rat.sub in
theorem c10_limiar_indiferente_witness :
    gerarPadroesValidos ⟨cChapa, 95/100⟩ [cItemA2]
      = gerarPadroesValidos ⟨cChapa, 1/2⟩ [cItemA2] :=
  c10_limiar_indiferente cChapa [cItemA2] (95/100) (1/2) (by decide) (by decide)

theorem btQtds_ok_of {qs : List Nat} {f : Nat → Except String (List (List Nat))}
    (h : ∀ q ∈ qs, ∃ sub, f q = .ok sub) : ∃ res, btQtds qs f = .ok res := by
  induction qs with
  | nil => exact ⟨[], rfl⟩
  | cons q qs ih =>
      rcases h q (List.mem_cons_self _ _) with ⟨sub, hsub⟩
      rcases ih (fun q' hq' => h q' (List.mem_cons_of_mem _ hq')) with ⟨more, hmore⟩
      exact ⟨sub.map (fun v => q :: v) ++ more, by simp only [btQtds, hsub, hmore]⟩

theorem btFuel_ok {alvo : Nat} :
    ∀ (items : List Item), (∀ it ∈ items, it.comprimento ≠ 0) →
    ∀ (soma : Nat), ∃ res, btFuel alvo items.length items soma = .ok res := by
  intro items
  induction items with
  | nil =>
      intro _ soma
      by_cases hs : soma = alvo
      · exact ⟨[[]], by simp [btFuel, hs]⟩
      · exact ⟨[], by simp [btFuel, hs]⟩
  | cons it rest ih =>
      intro hpos soma
      simp only [List.length_cons, btFuel]
      by_cases hlt : alvo < soma
      · exact ⟨[], by rw [if_pos hlt]⟩
      rw [if_neg hlt, if_neg (hpos it (List.mem_cons_self _ _))]
      apply btQtds_ok_of
      intro q _
      exact ih (fun x hx => hpos x (List.mem_cons_of_mem _ hx)) (soma + q * it.comprimento)

theorem encontrar_ok {g : GeradorPadroes} {combo : List Item}
    (hpos : ∀ it ∈ combo, it.comprimento ≠ 0) :
    ∃ ds, encontrarDistribuicoes g combo = .ok ds := by
  rcases btFuel_ok combo hpos 0 with ⟨res, hres⟩
  refine ⟨res.map (fun qs => { items := combo, quantidades := qs, chapa := none }), ?_⟩
  unfold encontrarDistribuicoes backtrack
  rw [hres]
  rfl

theorem filtrarValidos_ok {g : GeradorPadroes} (hL : g.chapa.largura ≠ 0) :
    ∀ (ds : List Padrao), ∃ vs, filtrarValidos g ds = .ok vs := by
  intro ds
  induction ds with
  | nil => exact ⟨[], rfl⟩
  | cons d ds ih =>
      rcases validarPadrao_ok hL d with ⟨b, hb⟩
      rcases ih with ⟨rest, hrest⟩
      exact ⟨if b then d :: rest else rest, by simp only [filtrarValidos, hb, hrest]⟩

theorem gerarPorCombos_ok {g : GeradorPadroes} (hL : g.chapa.largura ≠ 0) :
    ∀ (combosL : List (List Item)),
    (∀ combo ∈ combosL, ∀ it ∈ combo, it.comprimento ≠ 0) →
    ∃ ps, gerarPorCombos g combosL = .ok ps := by
  intro combosL
  induction combosL with
  | nil => exact fun _ => ⟨[], rfl⟩
  | cons combo resto ih =>
      intro hall
      rcases @encontrar_ok g combo (hall combo (List.mem_cons_self _ _)) with ⟨ds, hds⟩
      rcases filtrarValidos_ok hL ds with ⟨vs, hvs⟩
      rcases ih (fun c hc => hall c (List.mem_cons_of_mem _ hc)) with ⟨outros, houtros⟩
      exact ⟨vs ++ outros, by simp only [gerarPorCombos, hds, hvs, houtros]⟩

/-- C8: for every sheet with positive width and every item list in which every
item has positive `comprimento`, `gerarPadroesValidos` completes normally
(it is total by construction, and under these hypotheses it raises no
exception, i.e. returns `.ok`); an empty list is a legitimate outcome. -/
theorem c8_gerar_sem_excecao (g : GeradorPadroes) (items : List Item)
    (hW : 0 < g.chapa.largura) (hC : ∀ it ∈ items, 0 < it.comprimento) :
    ∃ ps, gerarPadroesValidos g items = .ok ps := by
  unfold gerarPadroesValidos
  apply gerarPorCombos_ok (Nat.pos_iff_ne_zero.mp hW)
  intro combo hcombo it hit
  rcases List.mem_flatten.mp hcombo with ⟨l, hl, hcl⟩
  rcases List.mem_map.mp hl with ⟨k, _, rfl⟩
  exact Nat.pos_iff_ne_zero.mp (hC it (combinacoes_mem k items combo hcl it hit))

unseal Rat.mul Rat.inv Rat.add Rat.sub in
theorem c8_gerar_sem_excecao_witness :
    ∃ ps, gerarPadroesValidos cGerador [cItemA2] = .ok ps :=
  c8_gerar_sem_excecao cGerador [cItemA2] (by decide) (by decide)

theorem aproveitamento_none {p : Padrao} (h : p.chapa = none) : p.aproveitamento = 0 := by
  unfold Padrao.aproveitamento
  rw [h]

theorem foldl_aprov_none : ∀ (usados : List (Padrao × Nat)),
    (∀ pu ∈ usados, pu.1.chapa = none) →
    ∀ (a : ℚ), usados.foldl (fun a pu => a + pu.1.aproveitamento * (pu.2 : ℚ)) a = a := by
  intro usados
  induction usados with
  | nil => intro _ a; rfl
  | cons pu rest ih =>
      intro h a
      simp only [List.foldl_cons, aproveitamento_none (h pu (List.mem_cons_self _ _)),
        zero_mul, add_zero]
      exact ih (fun x hx => h x (List.mem_cons_of_mem _ hx)) a

theorem montarSolucao_aprov_zero {usados : List (Padrao × Nat)} {ped : List Item}
    (h : ∀ pu ∈ usados, pu.1.chapa = none) :
    (montarSolucao usados ped).aproveitamento_total = 0 := by
  unfold montarSolucao
  simp only [foldl_aprov_none usados h 0]
  split
  · exact zero_div _
  · rfl

theorem enumFrom_snd_mem {α : Type} : ∀ (l : List α) (n : Nat) (p : Nat × α),
    p ∈ List.enumFrom n l → p.2 ∈ l := by
  intro l
  induction l with
  | nil => intro n p h; cases h
  | cons a l ih =>
      intro n p h
      simp only [List.enumFrom] at h
      rcases List.mem_cons.mp h with rfl | h2
      · exact List.mem_cons_self _ _
      · exact List.mem_cons_of_mem _ (ih (n+1) p h2)

theorem resumo_padroes_aprov {s : SolucaoOtimizacao} (h : ∀ p ∈ s.padroes, p.chapa = none) :
    ∀ pr ∈ s.resumo.padroes, pr.aproveitamento = formatPercent2 0 := by
  intro pr hpr
  unfold SolucaoOtimizacao.resumo at hpr
  simp only [List.mem_map] at hpr
  rcases hpr with ⟨ip, hip, rfl⟩
  have hm : ip.2 ∈ s.padroes := enumFrom_snd_mem _ _ _ hip
  simp only [aproveitamento_none (h _ hm)]

theorem formatPercent2_zero : formatPercent2 0 = "0.00%" := by
  simp only [formatPercent2]
  have h1 : ⌊(0 : ℚ) * 10000 + 1/2⌋ = 0 := by
    rw [zero_mul, zero_add, Int.floor_eq_zero_iff]
    constructor
    · norm_num
    · norm_num
  rw [h1]
  decide

/-- C9: every pattern constructed by the generator carries `chapa = none`, so
the `Padrao.aproveitamento` property evaluates to `0` on it; consequently a
solution `_montar_solucao` assembles out of such patterns has
`aproveitamento_total = 0`, and every per-pattern utilization string in its
`resumo()` reads `"0.00%"`. -/
theorem c9_chapa_none_aprov_zero :
    (∀ (g : GeradorPadroes) (items : List Item) (ps : List Padrao),
        gerarPadroesValidos g items = .ok ps →
        ∀ p ∈ ps, p.chapa = none ∧ p.aproveitamento = 0)
    ∧ (∀ (usados : List (Padrao × Nat)) (ped : List Item),
        (∀ pu ∈ usados, pu.1.chapa = none) →
        (montarSolucao usados ped).aproveitamento_total = 0
        ∧ ∀ pr ∈ (montarSolucao usados ped).resumo.padroes,
            pr.aproveitamento = "0.00%") := by
  constructor
  · intro g items ps h p hp
    have hch := (gerarPadroesValidos_sound h hp).1
    exact ⟨hch, aproveitamento_none hch⟩
  · intro usados ped h
    refine ⟨montarSolucao_aprov_zero h, ?_⟩
    intro pr hpr
    rw [← formatPercent2_zero]
    apply resumo_padroes_aprov _ pr hpr
    intro p hp
    have : p ∈ usados.map (fun pu => pu.1) := hp
    rcases List.mem_map.mp this with ⟨pu, hpu, rfl⟩
    exact h pu hpu

unseal Rat.mul Rat.inv Rat.add Rat.sub in
theorem c9_chapa_none_aprov_zero_witness :
    cPadraoA.chapa = none ∧ cPadraoA.aproveitamento = 0
    ∧ (montarSolucao [(cPadraoA, 2)] []).aproveitamento_total = 0 :=
  ⟨(c9_chapa_none_aprov_zero.1 cGerador [cItemA2] [cPadraoA] (by decide) cPadraoA
      (by decide)).1,
   (c9_chapa_none_aprov_zero.1 cGerador [cItemA2] [cPadraoA] (by decide) cPadraoA
      (by decide)).2,
   (c9_chapa_none_aprov_zero.2 [(cPadraoA, 2)] [] (by decide)).1⟩

/-- C3: for every candidate pattern list (and any constraints), the model
built by `_resolver_modelo` for the `"balanceado"` strategy is identical —
same coefficient on every pattern variable, same minimization direction, same
constraints — to the one built for `"maximizar_aproveitamento"`, and the
weight parameter has no effect on the model (any two weights give the same
model). -/
theorem c3_balanceado_igual_maximizar (chapa : Chapa) (padroes : List Padrao)
    (restricoes : List (String × Nat × Nat)) (p1 p2 : ℚ) :
    montarModelo chapa padroes restricoes "balanceado" p1
      = montarModelo chapa padroes restricoes "maximizar_aproveitamento" p2 := by
  unfold montarModelo montarObjetivo
  rw [if_neg (by decide : ¬ ("balanceado" = "minimizar_chapas")),
    if_neg (by decide : ¬ ("maximizar_aproveitamento" = "minimizar_chapas"))]

theorem foldl_aprov_sum : ∀ (usados : List (Padrao × Nat)) (a : ℚ),
    usados.foldl (fun a pu => a + pu.1.aproveitamento * (pu.2 : ℚ)) a
      = a + (usados.map (fun pu => pu.1.aproveitamento * (pu.2 : ℚ))).sum := by
  intro usados
  induction usados with
  | nil => intro a; simp
  | cons pu rest ih =>
      intro a
      simp only [List.foldl_cons, List.map_cons, List.sum_cons, ih]
      ring

/-- C4: for every non-empty list of (pattern, usage-count) pairs handed to
`_montar_solucao`, the returned solution's `aproveitamento_total` equals the
sum over used patterns of that pattern's utilization (the
`Padrao.aproveitamento` property, i.e. `soma_largura` divided by its sheet's
width when a sheet is attached) times its usage count, divided by the number
of distinct patterns used (the length of the chosen-pattern list). -/
theorem c4_aproveitamento_media (usados : List (Padrao × Nat)) (ped : List Item)
    (h : usados ≠ []) :
    (montarSolucao usados ped).aproveitamento_total
      = (usados.map (fun pu => pu.1.aproveitamento * (pu.2 : ℚ))).sum
          / (usados.length : ℚ) := by
  unfold montarSolucao
  simp only [foldl_aprov_sum, zero_add, List.length_map]
  rw [if_pos (List.length_pos.mpr h)]

def cPadraoSome : Padrao := { items := [cItemA2], quantidades := [2], chapa := some cChapa }

unseal Rat.mul Rat.inv Rat.add Rat.sub in
theorem c4_aproveitamento_media_witness :
    (montarSolucao [(cPadraoSome, 3)] []).aproveitamento_total
      = (([(cPadraoSome, 3)] : List (Padrao × Nat)).map
          (fun pu => pu.1.aproveitamento * (pu.2 : ℚ))).sum
          / ((([(cPadraoSome, 3)] : List (Padrao × Nat)).length : ℚ)) :=
  c4_aproveitamento_media [(cPadraoSome, 3)] [] (by decide)

/-- C5: for every list of (pattern, usage-count) pairs chosen by the solver,
the solution's `chapas_necessarias` equals the number of distinct patterns
used (the length of the chosen-pattern list); at the concrete pair list
`[(cPadraoA, 2)]` it differs from the sum of the usage counts. -/
theorem c5_chapas_sao_padroes_distintos :
    (∀ (usados : List (Padrao × Nat)) (ped : List Item),
        (montarSolucao usados ped).chapas_necessarias = usados.length)
    ∧ (montarSolucao [(cPadraoA, 2)] []).chapas_necessarias
        ≠ (([(cPadraoA, 2)] : List (Padrao × Nat)).map (fun pu => pu.2)).sum := by
  constructor
  · intro usados ped
    unfold montarSolucao
    simp only [List.length_map]
  · decide

/-- C7: whenever the generator succeeds with an empty candidate pattern list,
`otimizar` returns exactly one solution whose pattern list and
`items_cobertos` are empty (the empty placeholder signaling total
infeasibility), and no model is built at all: the result does not depend on
the solver collaborator. -/
theorem c7_placeholder_sem_padroes (solve solve2 : ModeloPL → Option (List Nat))
    (chapa : Chapa) (minA : ℚ) (pedido estoque : List Item)
    (maxSol : Nat) (tempoMs : ℚ)
    (h : gerarPadroesValidos ⟨chapa, minA⟩ (pedido ++ estoque) = .ok []) :
    otimizar solve chapa minA pedido estoque maxSol tempoMs
      = .ok [{ padroes := [], aproveitamento_total := 0, chapas_necessarias := 0,
               items_cobertos := [], tempo_processamento_ms := 0, ranking := 0 }]
    ∧ otimizar solve chapa minA pedido estoque maxSol tempoMs
      = otimizar solve2 chapa minA pedido estoque maxSol tempoMs := by
  have key : ∀ s : ModeloPL → Option (List Nat),
      otimizar s chapa minA pedido estoque maxSol tempoMs
        = .ok [{ padroes := [], aproveitamento_total := 0, chapas_necessarias := 0,
                 items_cobertos := [], tempo_processamento_ms := 0, ranking := 0 }] := by
    intro s
    unfold otimizar
    rw [h]
    rfl
  exact ⟨key solve, (key solve).trans (key solve2).symm⟩

def cItemImp : Item :=
  { codigo := "X", comprimento := 7, largura_maxima := 1, quantidade := 1, tipo := .pedido }

def cChapaP : Chapa := { largura := 1, comprimento := 1, espessura := 1 }

def cSolveNone : ModeloPL → Option (List Nat) := fun _ => none

def cSolveUm : ModeloPL → Option (List Nat) := fun _ => some [1]

unseal Rat.mul Rat.inv Rat.add Rat.sub in
theorem c7_placeholder_sem_padroes_witness :
    otimizar cSolveNone cChapaP (95/100) [cItemImp] [] 5 0
      = .ok [{ padroes := [], aproveitamento_total := 0, chapas_necessarias := 0,
               items_cobertos := [], tempo_processamento_ms := 0, ranking := 0 }]
    ∧ otimizar cSolveNone cChapaP (95/100) [cItemImp] [] 5 0
      = otimizar cSolveUm cChapaP (95/100) [cItemImp] [] 5 0 :=
  c7_placeholder_sem_padroes cSolveNone cSolveUm cChapaP (95/100) [cItemImp] [] 5 0
    (by decide)

/-! ### Helper lemmas about covered-quantity accumulation and the model -/

theorem dictGet_map_set_ne {k : String} {v : Nat} {c : String} (hc : c ≠ k) :
    ∀ (m : List (String × Nat)),
    dictGet (m.map (fun e => if e.1 == k then (k, v) else e)) c = dictGet m c := by
  intro m
  induction m with
  | nil => rfl
  | cons e m ih =>
      simp only [List.map_cons]
      by_cases he : (e.1 == k) = true
      · rw [if_pos he]
        have h1 : ((k, v).1 == c) = false := beq_false_of_ne fun h => hc h.symm
        have h2 : (e.1 == c) = false := by
          rw [eq_of_beq he]
          exact beq_false_of_ne fun h => hc h.symm
        unfold dictGet
        rw [List.find?_cons_of_neg _ (by simp [h1]),
          List.find?_cons_of_neg _ (by simp [h2])]
        exact ih
      · rw [if_neg he]
        by_cases hec : (e.1 == c) = true
        · unfold dictGet
          rw [List.find?_cons_of_pos _ (by simp [hec]),
            List.find?_cons_of_pos _ (by simp [hec])]
        · unfold dictGet
          rw [List.find?_cons_of_neg _ (by simp [hec]),
            List.find?_cons_of_neg _ (by simp [hec])]
          exact ih

theorem dictGet_map_set_eq {k : String} {v : Nat} :
    ∀ (m : List (String × Nat)), m.any (fun e => e.1 == k) = true →
    dictGet (m.map (fun e => if e.1 == k then (k, v) else e)) k = v := by
  intro m
  induction m with
  | nil => intro h; cases h
  | cons e m ih =>
      intro hany
      simp only [List.map_cons]
      by_cases he : (e.1 == k) = true
      · rw [if_pos he]
        unfold dictGet
        rw [List.find?_cons_of_pos _ (by simp)]
      · rw [if_neg he]
        have hany2 : m.any (fun e => e.1 == k) = true := by
          simp only [List.any_cons, he, Bool.false_or] at hany
          exact hany
        have hek : (e.1 == k) = false := by
          simp only [Bool.not_eq_true] at he
          exact he
        unfold dictGet
        rw [List.find?_cons_of_neg _ (by simp [hek])]
        exact ih hany2

theorem dictGet_dictSet (m : List (String × Nat)) (k : String) (v : Nat) (c : String) :
    dictGet (dictSet m k v) c = if c = k then v else dictGet m c := by
  unfold dictSet
  by_cases hany : m.any (fun e => e.1 == k) = true
  · rw [if_pos hany]
    by_cases hc : c = k
    · subst hc
      rw [if_pos rfl]
      exact dictGet_map_set_eq m hany
    · rw [if_neg hc]
      exact dictGet_map_set_ne hc m
  · rw [if_neg hany]
    by_cases hc : c = k
    · subst hc
      rw [if_pos rfl]
      have hnone : m.find? (fun e => e.1 == c) = none := by
        rw [List.find?_eq_none]
        intro e he hbe
        exact hany (List.any_eq_true.mpr ⟨e, he, hbe⟩)
      unfold dictGet
      rw [List.find?_append, hnone, Option.none_or,
        List.find?_cons_of_pos _ (by simp)]
    · rw [if_neg hc]
      unfold dictGet
      rw [List.find?_append]
      have hlast : ([(k, v)].find? (fun e => e.1 == c)) = none := by
        rw [List.find?_eq_none]
        intro e he hbe
        simp only [List.mem_singleton] at he
        subst he
        exact hc (eq_of_beq hbe).symm
      rw [hlast]
      cases m.find? (fun e => e.1 == c) with
      | none => rfl
      | some e => rfl

theorem dictGet_fold_add (c : String) : ∀ (pares : List (Item × Nat)) (m : List (String × Nat)),
    dictGet (pares.foldl
        (fun m iq => dictSet m iq.1.codigo (dictGet m iq.1.codigo + iq.2)) m) c
      = dictGet m c + ((pares.filter (fun iq => iq.1.codigo == c)).map (fun iq => iq.2)).sum := by
  intro pares
  induction pares with
  | nil => intro m; simp
  | cons iq pares ih =>
      intro m
      simp only [List.foldl_cons, ih, dictGet_dictSet, List.filter_cons]
      by_cases hc : c = iq.1.codigo
      · subst hc
        simp only [if_pos rfl, beq_self_eq_true, if_true, List.map_cons, List.sum_cons]
        omega
      · have hbe : (iq.1.codigo == c) = false := beq_false_of_ne fun h => hc h.symm
        simp only [if_neg hc, hbe, Bool.false_eq_true, if_false]

theorem dictGet_acumula (c : String) (m : List (String × Nat)) (p : Padrao) :
    dictGet (acumulaCobertos m p) c = dictGet m c + qtdNoPadrao p c :=
  dictGet_fold_add c (p.items.zip p.quantidades) m

theorem dictGet_montar_fold (c : String) : ∀ (usados : List (Padrao × Nat))
    (m : List (String × Nat)),
    dictGet (usados.foldl (fun m pu => acumulaCobertos m pu.1) m) c
      = dictGet m c + (usados.map (fun pu => qtdNoPadrao pu.1 c)).sum := by
  intro usados
  induction usados with
  | nil => intro m; simp
  | cons pu usados ih =>
      intro m
      simp only [List.foldl_cons, ih, dictGet_acumula, List.map_cons, List.sum_cons]
      omega

theorem dictGet_montarSolucao (c : String) (usados : List (Padrao × Nat)) (ped : List Item) :
    dictGet (montarSolucao usados ped).items_cobertos c
      = (usados.map (fun pu => qtdNoPadrao pu.1 c)).sum := by
  unfold montarSolucao
  simp only [dictGet_montar_fold]
  have h0 : dictGet [] c = 0 := rfl
  rw [h0, Nat.zero_add]

theorem decode_unscaled (c : String) : ∀ (padroes : List Padrao) (x : List Nat),
    (∀ v ∈ x, v ≤ 1) →
    ((decodeUsados padroes x).map (fun pu => qtdNoPadrao pu.1 c)).sum
      = somaPonderada (padroes.map (fun p => qtdNoPadrao p c)) x := by
  intro padroes
  induction padroes with
  | nil => intro x _; rfl
  | cons p ps ih =>
      intro x hx
      cases x with
      | nil => rfl
      | cons v xs =>
          have hv := hx v (List.mem_cons_self _ _)
          have hxs : ∀ u ∈ xs, u ≤ 1 := fun u hu => hx u (List.mem_cons_of_mem _ hu)
          rcases Nat.le_one_iff_eq_zero_or_eq_one.mp hv with rfl | rfl
          · simpa [decodeUsados, somaPonderada] using ih xs hxs
          · simpa [decodeUsados, somaPonderada] using ih xs hxs

theorem satisfazModelo_restricao {m : ModeloPL} {x : List Nat} (h : satisfazModelo m x)
    {r : RestricaoPL} (hr : r ∈ m.restricoes) :
    r.minimo ≤ somaPonderada r.coefs x ∧ somaPonderada r.coefs x ≤ r.maximo := by
  unfold satisfazModelo satisfazModeloB at h
  simp only [Bool.and_eq_true, List.all_eq_true, decide_eq_true_eq] at h
  exact h.2 r hr

theorem foldl_upsert_fresh (b : Item → Nat × Nat) :
    ∀ (items : List Item) (rs : List (String × Nat × Nat)),
    (∀ it ∈ items, ∀ e ∈ rs, e.1 ≠ it.codigo) →
    (items.map (fun it => it.codigo)).Nodup →
    items.foldl (fun rs it => upsertRestricao rs it.codigo (b it).1 (b it).2) rs
      = rs ++ items.map (fun it => (it.codigo, (b it).1, (b it).2)) := by
  intro items
  induction items with
  | nil => intro rs _ _; simp
  | cons it rest ih =>
      intro rs hfresh hnodup
      simp only [List.foldl_cons]
      have hup : upsertRestricao rs it.codigo (b it).1 (b it).2
          = rs ++ [(it.codigo, (b it).1, (b it).2)] := by
        unfold upsertRestricao
        rw [if_neg ?_]
        simp only [List.any_eq_true, not_exists, not_and, Bool.not_eq_true]
        intro e he
        exact beq_false_of_ne (hfresh it (List.mem_cons_self _ _) e he)
      rw [hup]
      rw [ih (rs ++ [(it.codigo, (b it).1, (b it).2)]) ?_ ?_]
      · simp
      · intro it' hit' e he
        rcases List.mem_append.mp he with h1 | h2
        · exact hfresh it' (List.mem_cons_of_mem _ hit') e h1
        · simp only [List.mem_singleton] at h2
          subst h2
          simp only [List.map_cons, List.nodup_cons, List.mem_map] at hnodup
          exact fun hcod => hnodup.1 ⟨it', hit', hcod.symm⟩
      · simp only [List.map_cons, List.nodup_cons] at hnodup
        exact hnodup.2

theorem buildRestricoes_eq {pedido estoque : List Item}
    (hnodup : ((pedido ++ estoque).map (fun it => it.codigo)).Nodup) :
    buildRestricoes pedido estoque
      = pedido.map (fun it => (it.codigo, it.quantidade, it.quantidade))
        ++ estoque.map (fun it => (it.codigo, 0, it.quantidade)) := by
  rw [List.map_append, List.nodup_append] at hnodup
  unfold buildRestricoes
  have h1 : pedido.foldl
      (fun rs it => upsertRestricao rs it.codigo it.quantidade it.quantidade) []
      = pedido.map (fun it => (it.codigo, it.quantidade, it.quantidade)) := by
    have := foldl_upsert_fresh (fun it => (it.quantidade, it.quantidade)) pedido []
      (fun _ _ e he => absurd he (List.not_mem_nil e)) hnodup.1
    simpa using this
  rw [h1]
  have := foldl_upsert_fresh (fun it => (0, it.quantidade)) estoque
    (pedido.map (fun it => (it.codigo, it.quantidade, it.quantidade))) ?_ hnodup.2.1
  · simpa using this
  · intro it hit e he
    rcases List.mem_map.mp he with ⟨it', hit', rfl⟩
    intro hcod
    exact hnodup.2.2 (List.mem_map_of_mem _ hit')
      (by rw [show it'.codigo = it.codigo from hcod]; exact List.mem_map_of_mem _ hit)

theorem otimizar_sol_origem {solve : ModeloPL → Option (List Nat)} {chapa : Chapa}
    {minA : ℚ} {pedido estoque : List Item} {maxSol : Nat} {tempoMs : ℚ}
    {padroes : List Padrao} {sols : List SolucaoOtimizacao}
    (hgen : gerarPadroesValidos ⟨chapa, minA⟩ (pedido ++ estoque) = .ok padroes)
    (hne : padroes ≠ [])
    (hout : otimizar solve chapa minA pedido estoque maxSol tempoMs = .ok sols) :
    ∀ sol ∈ sols, ∃ est peso x r,
      solve (montarModelo chapa padroes (buildRestricoes pedido estoque) est peso) = some x ∧
      sol = { montarSolucao (decodeUsados padroes x) pedido with
              ranking := r, tempo_processamento_ms := tempoMs } := by
  have hie : padroes.isEmpty = false := by
    cases padroes with
    | nil => exact absurd rfl hne
    | cons a l => rfl
  unfold otimizar at hout
  rw [hgen] at hout
  simp only [hie, Bool.false_eq_true, if_false, Except.ok.injEq] at hout
  subst hout
  intro sol hsol
  have h1 := (List.take_sublist _ _).subset hsol
  rcases List.mem_map.mp h1 with ⟨ip, hip, rfl⟩
  have h2 := enumFrom_snd_mem _ _ _ hip
  have h3 := (List.mergeSort_perm _ _).subset h2
  rcases List.mem_filterMap.mp h3 with ⟨e, _, hres⟩
  unfold resolverModelo at hres
  cases hx : solve (montarModelo chapa padroes (buildRestricoes pedido estoque) e.1 e.2) with
  | none => rw [hx] at hres; cases hres
  | some x =>
      rw [hx] at hres
      simp only [Option.some.injEq] at hres
      exact ⟨e.1, e.2, x, ip.1, hx, by rw [← hres]⟩

def cItemA4 : Item :=
  { codigo := "ITEM_A", comprimento := 600, largura_maxima := 1200
    quantidade := 4, tipo := .pedido }

def cPadraoA4 : Padrao := { items := [cItemA4], quantidades := [2], chapa := none }

def cSolveDois : ModeloPL → Option (List Nat) :=
  fun m => if satisfazModeloB m [2] then some [2] else none

unseal Rat.mul Rat.inv Rat.add Rat.sub List.merge List.mergeSort in
/-- C2 counterexample: with one order item of length 600 and quantity 4 on a
1200-wide sheet, the only candidate pattern holds the item twice; the
feasible (indeed optimal) solver assignment uses that pattern twice, the
model constraint 2·x = 4 holds, yet every returned solution's
`items_cobertos` entry for the code is 2, not the requested 4 — the
accumulation ignores the usage count. -/
theorem c2_contraexemplo :
    satisfazModelo (montarModelo cChapa [cPadraoA4] (buildRestricoes [cItemA4] [])
      "maximizar_aproveitamento" 1) [2]
    ∧ satisfazModelo (montarModelo cChapa [cPadraoA4] (buildRestricoes [cItemA4] [])
      "minimizar_chapas" (1/2)) [2]
    ∧ satisfazModelo (montarModelo cChapa [cPadraoA4] (buildRestricoes [cItemA4] [])
      "balanceado" (7/10)) [2]
    ∧ gerarPadroesValidos ⟨cChapa, 95/100⟩ ([cItemA4] ++ []) = .ok [cPadraoA4]
    ∧ (otimizar cSolveDois cChapa (95/100) [cItemA4] [] 5 0).map
        (List.map (fun s => dictGet s.items_cobertos "ITEM_A")) = .ok [2, 2, 2]
    ∧ cItemA4.quantidade = 4
    ∧ (2 : Nat) ≠ 4 := by
  decide

/-- C2 (amended): items_cobertos accumulates each chosen pattern's per-code
quantity once, unscaled by the usage count, so the entry equals the requested
quantity exactly whenever every value in the solver's assignment is at most 1
(each chosen pattern used once); the model constraint always enforces the
usage-weighted equality. Hypotheses: a nonempty candidate list, pairwise
distinct item codes, and a solver respecting the feasibility contract. -/
theorem c2_cobertura_pedido_emendada (solve : ModeloPL → Option (List Nat))
    (chapa : Chapa) (minA : ℚ) (pedido estoque : List Item) (maxSol : Nat)
    (tempoMs : ℚ) (padroes : List Padrao) (sols : List SolucaoOtimizacao)
    (hgen : gerarPadroesValidos ⟨chapa, minA⟩ (pedido ++ estoque) = .ok padroes)
    (hne : padroes ≠ [])
    (hnodup : ((pedido ++ estoque).map (fun it => it.codigo)).Nodup)
    (hcontrato : ∀ mo x, solve mo = some x → satisfazModelo mo x)
    (hbinario : ∀ mo x, solve mo = some x → ∀ v ∈ x, v ≤ 1)
    (hout : otimizar solve chapa minA pedido estoque maxSol tempoMs = .ok sols) :
    ∀ sol ∈ sols, ∀ it ∈ pedido,
      dictGet sol.items_cobertos it.codigo = it.quantidade := by
  intro sol hsol it hit
  rcases otimizar_sol_origem hgen hne hout sol hsol with ⟨est, peso, x, r, hx, rfl⟩
  have hic : ({ montarSolucao (decodeUsados padroes x) pedido with
      ranking := r, tempo_processamento_ms := tempoMs }).items_cobertos
      = (montarSolucao (decodeUsados padroes x) pedido).items_cobertos := rfl
  rw [hic, dictGet_montarSolucao, decode_unscaled _ _ _ (hbinario _ _ hx)]
  have hsat := hcontrato _ _ hx
  have hrmem : ({ nome := it.codigo, minimo := it.quantidade, maximo := it.quantidade
                  coefs := padroes.map (fun p => qtdNoPadrao p it.codigo) } : RestricaoPL)
      ∈ (montarModelo chapa padroes (buildRestricoes pedido estoque) est peso).restricoes := by
    unfold montarModelo
    simp only [List.mem_map]
    refine ⟨(it.codigo, it.quantidade, it.quantidade), ?_, rfl⟩
    rw [buildRestricoes_eq hnodup]
    exact List.mem_append_left _ (List.mem_map_of_mem _ hit)
  have hb := satisfazModelo_restricao hsat hrmem
  exact Nat.le_antisymm hb.2 hb.1

def cSolveUmViavel : ModeloPL → Option (List Nat) :=
  fun m => if satisfazModeloB m [1] then some [1] else none

theorem cSolveUmViavel_contrato :
    ∀ mo x, cSolveUmViavel mo = some x → satisfazModelo mo x := by
  intro mo x h
  unfold cSolveUmViavel at h
  by_cases hs : satisfazModeloB mo [1] = true
  · rw [if_pos hs] at h
    cases h
    exact hs
  · rw [if_neg hs] at h
    cases h

theorem cSolveUmViavel_binario :
    ∀ mo x, cSolveUmViavel mo = some x → ∀ v ∈ x, v ≤ 1 := by
  intro mo x h v hv
  unfold cSolveUmViavel at h
  by_cases hs : satisfazModeloB mo [1] = true
  · rw [if_pos hs] at h
    cases h
    simp only [List.mem_singleton] at hv
    omega
  · rw [if_neg hs] at h
    cases h

def cSolUm : SolucaoOtimizacao :=
  { padroes := [cPadraoA], aproveitamento_total := 0, chapas_necessarias := 1
    items_cobertos := [("ITEM_A", 2)], tempo_processamento_ms := 0, ranking := 1 }

def cSolsTres : List SolucaoOtimizacao :=
  [cSolUm, { cSolUm with ranking := 2 }, { cSolUm with ranking := 3 }]

unseal Rat.mul Rat.inv Rat.add Rat.sub List.merge List.mergeSort in
theorem c2_cobertura_pedido_emendada_witness :
    dictGet cSolUm.items_cobertos cItemA2.codigo = cItemA2.quantidade :=
  c2_cobertura_pedido_emendada cSolveUmViavel cChapa (95/100) [cItemA2] [] 5 0
    [cPadraoA] cSolsTres (by decide) (by decide) (by decide)
    cSolveUmViavel_contrato cSolveUmViavel_binario (by decide)
    cSolUm (by decide) cItemA2 (by decide)

theorem pairwise_enumFrom {α : Type} {R : α → α → Prop} :
    ∀ (l : List α) (n : Nat), l.Pairwise R →
    (List.enumFrom n l).Pairwise (fun a b => R a.2 b.2) := by
  intro l
  induction l with
  | nil => intro n _; exact List.Pairwise.nil
  | cons a l ih =>
      intro n h
      rcases List.pairwise_cons.mp h with ⟨h1, h2⟩
      simp only [List.enumFrom]
      exact List.Pairwise.cons (fun p hp => h1 p.2 (enumFrom_snd_mem _ _ _ hp)) (ih (n+1) h2)

theorem sols_mergeSort_pairwise (l : List SolucaoOtimizacao) :
    (l.mergeSort (fun a b => decide (b.aproveitamento_total ≤ a.aproveitamento_total))).Pairwise
      (fun a b => b.aproveitamento_total ≤ a.aproveitamento_total) := by
  have htrans : ∀ (a b c : SolucaoOtimizacao),
      (decide (b.aproveitamento_total ≤ a.aproveitamento_total)) = true →
      (decide (c.aproveitamento_total ≤ b.aproveitamento_total)) = true →
      (decide (c.aproveitamento_total ≤ a.aproveitamento_total)) = true := by
    intro a b c h1 h2
    simp only [decide_eq_true_eq] at h1 h2 ⊢
    exact le_trans h2 h1
  have htotal : ∀ (a b : SolucaoOtimizacao),
      ((decide (b.aproveitamento_total ≤ a.aproveitamento_total)) ||
        (decide (a.aproveitamento_total ≤ b.aproveitamento_total))) = true := by
    intro a b
    simp only [Bool.or_eq_true, decide_eq_true_eq]
    exact le_total b.aproveitamento_total a.aproveitamento_total
  have h : (l.mergeSort
        (fun a b => decide (b.aproveitamento_total ≤ a.aproveitamento_total))).Pairwise
      (fun a b =>
        (fun a b : SolucaoOtimizacao =>
          decide (b.aproveitamento_total ≤ a.aproveitamento_total)) a b = true) :=
    List.sorted_mergeSort htrans htotal l
  exact h.imp (fun hab => of_decide_eq_true hab)

theorem enumFrom_rank_map (t : ℚ) : ∀ (l : List SolucaoOtimizacao) (n : Nat),
    ((List.enumFrom n l).map
        (fun is => { is.2 with ranking := is.1, tempo_processamento_ms := t })).map
      (fun s => s.ranking) = List.range' n l.length := by
  intro l
  induction l with
  | nil => intro n; rfl
  | cons a l ih =>
      intro n
      simp only [List.enumFrom, List.map_cons, List.length_cons, List.range'_succ]
      rw [ih (n+1)]

theorem take_range' : ∀ (k s n : Nat), (List.range' s n).take k = List.range' s (min k n) := by
  intro k
  induction k with
  | zero => intro s n; simp
  | succ k ih =>
      intro s n
      cases n with
      | zero => simp
      | succ n =>
          simp only [List.range'_succ, List.take_succ_cons, Nat.succ_min_succ]
          rw [ih (s+1) n]

unseal Rat.mul Rat.inv Rat.add Rat.sub in
/-- C6 counterexample: on a request with no valid pattern (sheet width 1,
single order item of length 7), `otimizar` returns the single
empty-placeholder solution with its default ranking 0, so the ranking fields
are [0], not the contiguous sequence 1..N = [1] the claim requires for every
request. -/
theorem c6_contraexemplo :
    (otimizar cSolveNone cChapaP (95/100) [cItemImp] [] 5 0).map
        (List.map (fun s => s.ranking)) = .ok [0]
    ∧ List.range' 1 1 = [1]
    ∧ ([0] : List Nat) ≠ [1] := by
  decide

/-- C6 (amended): for every request on which the generator succeeds with a
nonempty candidate pattern list, the list returned by `otimizar` is sorted in
non-increasing order of `aproveitamento_total`, its ranking fields are
exactly the contiguous sequence 1..N (1-based) in list order, and
N ≤ `max_solucoes`. (On the empty-candidate path the single placeholder
solution instead keeps the default ranking 0.) -/
theorem c6_ordenacao_ranking_emendada (solve : ModeloPL → Option (List Nat))
    (chapa : Chapa) (minA : ℚ) (pedido estoque : List Item) (maxSol : Nat)
    (tempoMs : ℚ) (padroes : List Padrao) (sols : List SolucaoOtimizacao)
    (hgen : gerarPadroesValidos ⟨chapa, minA⟩ (pedido ++ estoque) = .ok padroes)
    (hne : padroes ≠ [])
    (hout : otimizar solve chapa minA pedido estoque maxSol tempoMs = .ok sols) :
    sols.Pairwise (fun a b => b.aproveitamento_total ≤ a.aproveitamento_total)
    ∧ sols.map (fun s => s.ranking) = List.range' 1 sols.length
    ∧ sols.length ≤ maxSol := by
  have hie : padroes.isEmpty = false := by
    cases padroes with
    | nil => exact absurd rfl hne
    | cons a l => rfl
  unfold otimizar at hout
  rw [hgen] at hout
  simp only [hie, Bool.false_eq_true, if_false, Except.ok.injEq] at hout
  subst hout
  refine ⟨?_, ?_, List.length_take_le _ _⟩
  · apply List.Pairwise.sublist (List.take_sublist _ _)
    rw [List.pairwise_map]
    exact @pairwise_enumFrom SolucaoOtimizacao
      (fun a b => b.aproveitamento_total ≤ a.aproveitamento_total) _ 1
      (sols_mergeSort_pairwise _)
  · rw [List.map_take, enumFrom_rank_map, take_range', List.length_take,
      List.length_map, List.enumFrom_length]

unseal Rat.mul Rat.inv Rat.add Rat.sub List.merge List.mergeSort in
theorem c6_ordenacao_ranking_emendada_witness :
    cSolsTres.Pairwise (fun a b => b.aproveitamento_total ≤ a.aproveitamento_total)
    ∧ cSolsTres.map (fun s => s.ranking) = List.range' 1 cSolsTres.length
    ∧ cSolsTres.length ≤ 5 :=
  c6_ordenacao_ranking_emendada cSolveUm cChapa (95/100) [cItemA2] [] 5 0
    [cPadraoA] cSolsTres (by decide) (by decide) (by decide)
